import Mathlib

/-!
Shallow embedding of the Video-Uploader orchestration script (src/main.py).

Strings are modelled as `List Char`.  Filesystem facts (existence, regularity,
readability, directory contents) and the daemon's progress stream are external
inputs, so they appear as explicit parameters of the embedded functions.
-/

namespace VideoUploader

/-- Whitespace characters stripped by Python `str.strip()` (ASCII subset). -/
def isPyWs (c : Char) : Bool :=
  c = ' ' || c = '\t' || c = '\n' || c = '\r' || c = '\x0b' || c = '\x0c'

/-- Python `str.strip()`: drop whitespace from both ends. -/
def pyStrip (s : List Char) : List Char :=
  ((s.dropWhile isPyWs).reverse.dropWhile isPyWs).reverse

/-- Python `str.startswith("/")`. -/
def startsWithSlash : List Char → Bool
  | [] => false
  | c :: _ => c = '/'

/-- Python `str.endswith("/")`. -/
def endsWithSlash (s : List Char) : Bool :=
  startsWithSlash s.reverse

/-- The literal "http://". -/
def httpPfx : List Char := ['h', 't', 't', 'p', ':', '/', '/']

/-- The literal "https://". -/
def httpsPfx : List Char := ['h', 't', 't', 'p', 's', ':', '/', '/']

/-- Endpoint fix from `create_transfer_spec` (main.py:152-155):
`if endpoint and not (endpoint.startswith("http://") or endpoint.startswith("https://")): endpoint = "https://" + endpoint`. -/
def normalizeEndpoint (e : List Char) : List Char :=
  if !e.isEmpty && !(httpPfx.isPrefixOf e || httpsPfx.isPrefixOf e) then
    httpsPfx ++ e
  else
    e

/-- The two slash fixes of `create_transfer_spec` (main.py:160-163):
prepend `/` when missing at the front, append `/` when missing at the back. -/
def wrapSlashes (t : List Char) : List Char :=
  let t1 := if startsWithSlash t then t else '/' :: t
  if endsWithSlash t1 then t1 else t1 ++ ['/']

/-- Destination fix from `create_transfer_spec` (main.py:157-163):
`destination_root = (self.destination or "/").strip()`, then the slash fixes. -/
def normalizeDestination (d : List Char) : List Char :=
  wrapSlashes (pyStrip (if d.isEmpty then ['/'] else d))

/-- Destination normalization as worded by the spec (for the refinement in C1):
trim whitespace; if it does not start with `/`, prepend `/`; if it does not end
with `/`, append `/`. -/
def specNormalizeDestination (d : List Char) : List Char :=
  wrapSlashes (pyStrip d)

/-- The configuration fields read once at startup (main.py:102-107) plus the
`create_dir` constructor flag.  Empty list stands for an unset/empty variable. -/
structure Config where
  api_key : List Char
  bucket : List Char
  service_instance_id : List Char
  service_endpoint : List Char
  remote_host : List Char
  destination : List Char
  create_dir : Bool
deriving DecidableEq

def kApiKey : List Char := "IBMCLOUD_API_KEY".toList
def kBucket : List Char := "IBMCLOUD_BUCKET".toList
def kInstance : List Char := "IBMCLOUD_COS_INSTANCE_ID".toList
def kEndpoint : List Char := "IBMCLOUD_COS_ENDPOINT".toList

/-- The `required_vars` list of `_validate_environment` (main.py:111-116). -/
def requiredVars (c : Config) : List (List Char × List Char) :=
  [ (kApiKey, c.api_key),
    (kBucket, c.bucket),
    (kInstance, c.service_instance_id),
    (kEndpoint, c.service_endpoint) ]

/-- `missing = [name for name, val in required_vars if not val]` (main.py:117).
A string is falsy exactly when it is empty. -/
def missingVars (c : Config) : List (List Char) :=
  (requiredVars c).filterMap (fun nv => if nv.2.isEmpty then some nv.1 else none)

/-- One element of `assets.paths`.  `destination = none` models the JSON object
with the "destination" key omitted. -/
structure PathEntry where
  source : List Char
  destination : Option (List Char)
deriving DecidableEq

/-- The TransferSpecV2 dict returned by `create_transfer_spec` (main.py:172-194),
flattened to a record (one field per JSON leaf). -/
structure TransferSpec where
  api_key : List Char
  bucket : List Char
  ibm_service_instance_id : List Char
  ibm_service_endpoint : List Char
  create_dir : Bool
  direction : List Char
  remote_host : List Char
  title : List Char
  destination_root : List Char
  paths : List PathEntry
deriving DecidableEq

/-- `create_transfer_spec(self, file_paths)` (main.py:140-194). -/
def create_transfer_spec (c : Config) (file_paths : List (List Char)) : TransferSpec :=
  let endpoint := normalizeEndpoint c.service_endpoint
  let destination_root := normalizeDestination c.destination
  let path_entries := file_paths.map (fun f => { source := f, destination := none : PathEntry })
  { api_key := c.api_key,
    bucket := c.bucket,
    ibm_service_instance_id := c.service_instance_id,
    ibm_service_endpoint := endpoint,
    create_dir := c.create_dir,
    direction := "send".toList,
    remote_host := c.remote_host,
    title := "video file upload".toList,
    destination_root := destination_root,
    paths := path_entries }


/-- Modelled from the spec: a discovered source file together with its optional
per-file destination override.  src/main.py only documents overrides in a
comment (main.py:170) and never attaches one, so the asset record itself is
taken from the spec's SourceAsset data model. -/
structure SourceAsset where
  absolutePath : List Char
  destinationOverride : Option (List Char)
deriving DecidableEq

/-- Modelled from the spec: each asset contributes a `source` entry, and a
`destination` field is added exactly when `destinationOverride` is set
(main.py builds the no-override special case at line 168). -/
def assetEntry (a : SourceAsset) : PathEntry :=
  { source := a.absolutePath, destination := a.destinationOverride }

/-- Modelled from the spec: the `assets.paths` list built from a list of
assets, one entry per asset. -/
def assetPathEntries (assets : List SourceAsset) : List PathEntry :=
  assets.map assetEntry

/-- `video_types = [".mp4", ".mov", ".MP4", ".MOV"]` (main.py:130). -/
def video_types : List (List Char) :=
  [".mp4".toList, ".mov".toList, ".MP4".toList, ".MOV".toList]

/-- Python `pathlib.PurePath.suffix` on a final path component: the substring
from the last dot, provided that dot is neither the first nor the last
character; otherwise the empty string. -/
def pySuffix (name : List Char) : List Char :=
  let j := name.reverse.findIdx (fun c => c = '.')
  if j < name.length then
    let i := name.length - 1 - j
    if 0 < i ∧ i < name.length - 1 then name.drop i else []
  else []

/-- One entry of the recursive directory walk `directory.rglob("*")`:
its final component name, its resolved absolute path, and whether it is a
regular file. -/
structure DirEntry where
  name : List Char
  resolved : List Char
  isFile : Bool
deriving DecidableEq

/-- The argument of `find_video_files`: either an existing regular file
(`p.is_file()` true) or anything else, which the code scans as a directory;
a non-existent or empty directory is a `dir` with no entries. -/
inductive FsNode where
  | file (name resolved : List Char)
  | dir (entries : List DirEntry)
deriving DecidableEq

/-- `find_video_files(self, path_like)` (main.py:123-138). -/
def find_video_files : FsNode → List (List Char)
  | .file name resolved =>
      if pySuffix name ∈ video_types then [resolved] else []
  | .dir entries =>
      (entries.filter
        (fun f => decide (pySuffix f.name ∈ video_types) && f.isFile)).map
        (fun f => f.resolved)

/-- ASCII lower-casing, used only to state case-insensitive matching. -/
def lowerChar (c : Char) : Char :=
  if 'A' ≤ c ∧ c ≤ 'Z' then Char.ofNat (c.toNat + 32) else c


/-- The filesystem facts about one path handed to `upload_videos`: its resolved
absolute form and the three checks of the validation loop (main.py:233-244). -/
structure SrcFile where
  resolved : List Char
  found : Bool
  isRegular : Bool
  readable : Bool
deriving DecidableEq

/-- The per-file validation loop of `upload_videos` (main.py:232-244): a path
survives iff it exists, is a regular file and is readable; rejected entries are
logged and skipped (`continue`). -/
def validateFiles (files : List SrcFile) : List (List Char) :=
  files.filterMap
    (fun f => if f.found && f.isRegular && f.readable then some f.resolved else none)

/-- Daemon status codes, mapped as in `get_status_text` (main.py:214-223);
codes outside the known set are `unknown`. -/
inductive TransferStatus where
  | queued
  | running
  | completed
  | failed
  | paused
  | unknown (code : Int)
deriving DecidableEq

/-- One message of the `MonitorTransfers` stream as the loop body sees it:
the mapped status, the elapsed seconds `int(time.time() - start_time)` at
receipt, and the transferred bytes. -/
structure Sample where
  status : TransferStatus
  elapsed : Nat
  bytes : Nat
deriving DecidableEq

/-- `timeout_seconds = 300` (main.py:297). -/
def timeout_seconds : Nat := 300

/-- `status_code in (transfer_manager.COMPLETED, transfer_manager.FAILED)`
(main.py:311). -/
def isTerminal : TransferStatus → Bool
  | .completed => true
  | .failed => true
  | _ => false

/-- How the monitoring loop ended. -/
inductive MonitorOutcome where
  | completedOk
  | failedErr
  | softTimeout
  | streamEnded
deriving DecidableEq

/-- The monitoring loop of `upload_videos` (main.py:299-322): for each sample,
first the terminal-state check (break with the final outcome), then the
watchdog check `elapsed > timeout_seconds` (break with a soft timeout);
a stream that ends by itself falls out of the loop. -/
def runMonitor : List Sample → MonitorOutcome
  | [] => .streamEnded
  | s :: rest =>
      if isTerminal s.status then
        if s.status = .completed then .completedOk else .failedErr
      else if timeout_seconds < s.elapsed then .softTimeout
      else runMonitor rest

/-- Whether the loop body breaks on this sample. -/
def stopsAt (s : Sample) : Bool :=
  isTerminal s.status || decide (timeout_seconds < s.elapsed)

/-- How many samples the loop pulls from the stream before it stops. -/
def consumedSamples : List Sample → Nat
  | [] => 0
  | s :: rest => if stopsAt s then 1 else 1 + consumedSamples rest

/-- The observable outcome of one `upload_videos` run (main.py:225-331):
early returns, `sys.exit(1)` sites, the dry-run print, and the monitored
transfer. -/
inductive UploadResult where
  | noFiles
  | noValid
  | dryRunSpec (spec : TransferSpec)
  | connectFail
  | envExit (missing : List (List Char))
  | submitErr
  | monitored (spec : TransferSpec) (outcome : MonitorOutcome)
deriving DecidableEq

/-- `upload_videos(self, file_paths, dry_run)` (main.py:225-331).  External
effects are parameters: `files` carries the filesystem facts about each given
path, `connectOk` whether the gRPC stub could be built (main.py:202-212),
`submitOk` whether `StartTransfer` succeeded, and `stream` the scripted
monitor stream. -/
def upload_videos (c : Config) (files : List SrcFile) (dry_run : Bool)
    (connectOk : Bool) (submitOk : Bool) (stream : List Sample) : UploadResult :=
  if files.isEmpty then .noFiles
  else
    let abs_files := validateFiles files
    if abs_files.isEmpty then .noValid
    else
      let transfer_spec := create_transfer_spec c abs_files
      if dry_run then .dryRunSpec transfer_spec
      else if !connectOk then .connectFail
      else
        let missing := missingVars c
        if !missing.isEmpty then .envExit missing
        else if !submitOk then .submitErr
        else .monitored transfer_spec (runMonitor stream)

/-- The process exit code produced by each `upload_videos` outcome: the
`sys.exit(1)` sites give 1; every plain `return` (and the end of the monitor
loop) lets `main()` finish normally, so the interpreter exits with 0. -/
def exitCode : UploadResult → Nat
  | .noFiles => 0
  | .noValid => 0
  | .dryRunSpec _ => 0
  | .connectFail => 1
  | .envExit _ => 1
  | .submitErr => 1
  | .monitored _ _ => 0

/-! Helper lemmas about the normalization functions. -/

theorem startsWithSlash_append (l r : List Char) (h : startsWithSlash l = true) :
    startsWithSlash (l ++ r) = true := by
  cases l with
  | nil => exact Bool.noConfusion h
  | cons c m => exact h

theorem endsWithSlash_append (l : List Char) : endsWithSlash (l ++ ['/']) = true := by
  unfold endsWithSlash
  rw [List.reverse_append]
  rfl

theorem wrapSlashes_starts (t : List Char) : startsWithSlash (wrapSlashes t) = true := by
  simp only [wrapSlashes]
  by_cases h : startsWithSlash t = true
  · rw [if_pos h]
    by_cases h2 : endsWithSlash t = true
    · rw [if_pos h2]; exact h
    · rw [if_neg h2]; exact startsWithSlash_append t ['/'] h
  · rw [if_neg h]
    by_cases h2 : endsWithSlash ('/' :: t) = true
    · rw [if_pos h2]; rfl
    · rw [if_neg h2]; exact startsWithSlash_append ('/' :: t) ['/'] rfl

theorem wrapSlashes_ends (t : List Char) : endsWithSlash (wrapSlashes t) = true := by
  simp only [wrapSlashes]
  by_cases h : startsWithSlash t = true
  · rw [if_pos h]
    by_cases h2 : endsWithSlash t = true
    · rw [if_pos h2]; exact h2
    · rw [if_neg h2]; exact endsWithSlash_append t
  · rw [if_neg h]
    by_cases h2 : endsWithSlash ('/' :: t) = true
    · rw [if_pos h2]; exact h2
    · rw [if_neg h2]; exact endsWithSlash_append ('/' :: t)

theorem wrapSlashes_fixed (t : List Char) (h1 : startsWithSlash t = true)
    (h2 : endsWithSlash t = true) : wrapSlashes t = t := by
  simp only [wrapSlashes]
  rw [if_pos h1, if_pos h2]

theorem dropWhile_no_ws (l : List Char) (h : startsWithSlash l = true) :
    l.dropWhile isPyWs = l := by
  cases l with
  | nil => exact Bool.noConfusion h
  | cons c m =>
      have hc : c = '/' := of_decide_eq_true h
      subst hc
      have hw : isPyWs '/' = false := by decide
      simp [List.dropWhile_cons, hw]

theorem pyStrip_slash_fixed (s : List Char) (h1 : startsWithSlash s = true)
    (h2 : endsWithSlash s = true) : pyStrip s = s := by
  have h2' : startsWithSlash s.reverse = true := h2
  unfold pyStrip
  rw [dropWhile_no_ws s h1, dropWhile_no_ws s.reverse h2', List.reverse_reverse]

theorem normDest_fixed (s : List Char) (h1 : startsWithSlash s = true)
    (h2 : endsWithSlash s = true) : normalizeDestination s = s := by
  have hne : s.isEmpty = false := by
    cases s with
    | nil => simp [startsWithSlash] at h1
    | cons c m => rfl
  unfold normalizeDestination
  rw [hne]
  simp only [Bool.false_eq_true, if_false]
  rw [pyStrip_slash_fixed s h1 h2]
  exact wrapSlashes_fixed s h1 h2

theorem norm_dest_eq_spec (d : List Char) :
    normalizeDestination d = specNormalizeDestination d := by
  cases d with
  | nil => decide
  | cons c m => rfl

theorem isPrefixOf_append_self (l r : List Char) : l.isPrefixOf (l ++ r) = true := by
  induction l with
  | nil => simp [List.isPrefixOf]
  | cons c m ih => simp [List.isPrefixOf, ih]

theorem normEndpoint_prepends (e : List Char) (h1 : e ≠ [])
    (h2 : httpPfx.isPrefixOf e = false) (h3 : httpsPfx.isPrefixOf e = false) :
    normalizeEndpoint e = httpsPfx ++ e := by
  have hne : e.isEmpty = false := by
    cases e with
    | nil => exact absurd rfl h1
    | cons c m => rfl
  unfold normalizeEndpoint
  rw [if_pos]
  simp [hne, h2, h3]

theorem normEndpoint_scheme_fixed (e : List Char)
    (h : httpPfx.isPrefixOf e = true ∨ httpsPfx.isPrefixOf e = true) :
    normalizeEndpoint e = e := by
  unfold normalizeEndpoint
  rcases h with h | h <;> simp [h]

theorem normEndpoint_idem (e : List Char) :
    normalizeEndpoint (normalizeEndpoint e) = normalizeEndpoint e := by
  by_cases h : (!e.isEmpty && !(httpPfx.isPrefixOf e || httpsPfx.isPrefixOf e)) = true
  · have he : normalizeEndpoint e = httpsPfx ++ e := by
      unfold normalizeEndpoint; rw [if_pos h]
    rw [he]
    exact normEndpoint_scheme_fixed _ (Or.inr (isPrefixOf_append_self httpsPfx e))
  · have he : normalizeEndpoint e = e := by
      unfold normalizeEndpoint; rw [if_neg h]
    rw [he, he]

theorem normDest_idem (d : List Char) :
    normalizeDestination (normalizeDestination d) = normalizeDestination d := by
  have h1 : startsWithSlash (normalizeDestination d) = true := wrapSlashes_starts _
  have h2 : endsWithSlash (normalizeDestination d) = true := wrapSlashes_ends _
  exact normDest_fixed _ h1 h2

/-! Claim theorems. -/

/-- Claim C1: for every configured destination string, the built request's
`assets.destination_root` is the input trimmed of surrounding whitespace, with
a `/` prepended when missing at the front and appended when missing at the
back; an empty or `/`-only destination normalizes to exactly `/` ("uploads" to
"/uploads/", "" to "/", "/a/b" to "/a/b/"). -/
theorem destination_root_matches_spec :
    (∀ (c : Config) (files : List (List Char)),
        (create_transfer_spec c files).destination_root
          = specNormalizeDestination c.destination)
    ∧ normalizeDestination "uploads".toList = "/uploads/".toList
    ∧ normalizeDestination "".toList = "/".toList
    ∧ normalizeDestination "/".toList = "/".toList
    ∧ normalizeDestination "/a/b".toList = "/a/b/".toList := by
  refine ⟨fun c files => ?_, by decide, by decide, by decide, by decide⟩
  show normalizeDestination c.destination = specNormalizeDestination c.destination
  exact norm_dest_eq_spec c.destination

/-- Claim C2: for every configured service endpoint, the built request's
`ibm_service_endpoint` gets `https://` prepended when the endpoint is
non-empty and carries neither scheme; an endpoint already carrying a scheme,
or an empty endpoint, passes through unchanged. -/
theorem endpoint_scheme_in_spec :
    ∀ (c : Config) (files : List (List Char)),
      (c.service_endpoint ≠ [] →
        httpPfx.isPrefixOf c.service_endpoint = false →
        httpsPfx.isPrefixOf c.service_endpoint = false →
        (create_transfer_spec c files).ibm_service_endpoint
          = httpsPfx ++ c.service_endpoint)
      ∧ ((httpPfx.isPrefixOf c.service_endpoint = true
            ∨ httpsPfx.isPrefixOf c.service_endpoint = true) →
        (create_transfer_spec c files).ibm_service_endpoint = c.service_endpoint)
      ∧ (c.service_endpoint = [] →
        (create_transfer_spec c files).ibm_service_endpoint = []) := by
  intro c files
  refine ⟨fun h1 h2 h3 => ?_, fun h => ?_, fun h => ?_⟩
  · show normalizeEndpoint c.service_endpoint = _
    exact normEndpoint_prepends _ h1 h2 h3
  · show normalizeEndpoint c.service_endpoint = _
    exact normEndpoint_scheme_fixed _ h
  · show normalizeEndpoint c.service_endpoint = []
    rw [h]
    rfl

/-- Witness for C2: concrete endpoints "s3.example.com" and "http://x". -/
theorem endpoint_scheme_in_spec_witness :
    ("s3.example.com".toList ≠ [] ∧
      (create_transfer_spec ⟨[], [], [], "s3.example.com".toList, [], [], true⟩
          []).ibm_service_endpoint = httpsPfx ++ "s3.example.com".toList)
    ∧ (create_transfer_spec ⟨[], [], [], "http://x".toList, [], [], true⟩
          []).ibm_service_endpoint = "http://x".toList :=
  ⟨⟨by decide,
    (endpoint_scheme_in_spec ⟨[], [], [], "s3.example.com".toList, [], [], true⟩ []).1
      (by decide) (by decide) (by decide)⟩,
   (endpoint_scheme_in_spec ⟨[], [], [], "http://x".toList, [], [], true⟩ []).2.1
      (Or.inl (by decide))⟩

/-- Claim C8: both normalization functions are idempotent, and already
normalized inputs (an endpoint carrying a scheme; a destination starting and
ending with `/`) are returned unchanged. -/
theorem normalization_idempotent :
    (∀ e, normalizeEndpoint (normalizeEndpoint e) = normalizeEndpoint e)
    ∧ (∀ d, normalizeDestination (normalizeDestination d) = normalizeDestination d)
    ∧ (∀ e, (httpPfx.isPrefixOf e = true ∨ httpsPfx.isPrefixOf e = true) →
        normalizeEndpoint e = e)
    ∧ (∀ d, startsWithSlash d = true → endsWithSlash d = true →
        normalizeDestination d = d) :=
  ⟨normEndpoint_idem, normDest_idem, normEndpoint_scheme_fixed, normDest_fixed⟩

/-- Witness for C8: "https://x" and "/a/" are fixed points. -/
theorem normalization_idempotent_witness :
    normalizeEndpoint "https://x".toList = "https://x".toList
    ∧ normalizeDestination "/a/".toList = "/a/".toList :=
  ⟨normalization_idempotent.2.2.1 "https://x".toList (Or.inr (by decide)),
   normalization_idempotent.2.2.2 "/a/".toList (by decide) (by decide)⟩

/-- Claim C7: submission-time validation reports every missing required field:
a name is in the missing list iff it is the name of one of the four required
fields and that field is empty; with all four empty, all four names appear. -/
theorem missing_vars_enumerates_all :
    (∀ (c : Config) (n : List Char),
        n ∈ missingVars c ↔
          ((n = kApiKey ∧ c.api_key = []) ∨ (n = kBucket ∧ c.bucket = [])
            ∨ (n = kInstance ∧ c.service_instance_id = [])
            ∨ (n = kEndpoint ∧ c.service_endpoint = [])))
    ∧ missingVars ⟨[], [], [], [], [], [], true⟩
        = [kApiKey, kBucket, kInstance, kEndpoint] := by
  constructor
  · intro c n
    by_cases h1 : c.api_key = [] <;> by_cases h2 : c.bucket = [] <;>
      by_cases h3 : c.service_instance_id = [] <;>
      by_cases h4 : c.service_endpoint = [] <;>
      simp [missingVars, requiredVars, List.isEmpty_iff, h1, h2, h3, h4]
  · rfl

/-! Helper lemmas about the monitoring loop. -/

theorem runMonitor_cons_skip (t : Sample) (l : List Sample) (h : stopsAt t = false) :
    runMonitor (t :: l) = runMonitor l := by
  have h1 : isTerminal t.status = false := by
    cases hb : isTerminal t.status
    · rfl
    · rw [stopsAt, hb] at h; exact Bool.noConfusion h
  have h2 : ¬ (timeout_seconds < t.elapsed) := by
    intro hlt
    rw [stopsAt, h1, decide_eq_true hlt] at h
    exact Bool.noConfusion h
  simp [runMonitor, h1, h2]

theorem consumedSamples_cons_skip (t : Sample) (l : List Sample)
    (h : stopsAt t = false) : consumedSamples (t :: l) = 1 + consumedSamples l := by
  simp [consumedSamples, h]

/-- Claim C5: the monitoring loop stops exactly at the first terminal or
timed-out sample: after any run of non-stopping samples, a `Completed` or
`Failed` sample ends the loop with the corresponding outcome, a non-terminal
sample past the 300-second watchdog ends it with a soft timeout, and in each
case exactly the samples up to and including the stopping one are consumed. -/
theorem monitor_stops_on_terminal_or_timeout :
    ∀ (pre : List Sample) (s : Sample) (rest : List Sample),
      (∀ t ∈ pre, stopsAt t = false) →
      ((s.status = .completed → runMonitor (pre ++ s :: rest) = .completedOk)
        ∧ (s.status = .failed → runMonitor (pre ++ s :: rest) = .failedErr)
        ∧ (isTerminal s.status = false → timeout_seconds < s.elapsed →
            runMonitor (pre ++ s :: rest) = .softTimeout)
        ∧ (stopsAt s = true →
            consumedSamples (pre ++ s :: rest) = pre.length + 1)) := by
  intro pre
  induction pre with
  | nil =>
      intro s rest _
      refine ⟨fun hs => ?_, fun hs => ?_, fun h1 h2 => ?_, fun hstop => ?_⟩
      · simp [runMonitor, hs, isTerminal]
      · simp [runMonitor, hs, isTerminal]
      · simp [runMonitor, h1, h2]
      · simp [consumedSamples, hstop]
  | cons t pre ih =>
      intro s rest h
      have ht : stopsAt t = false := h t (by simp)
      have h' : ∀ u ∈ pre, stopsAt u = false := fun u hu => h u (by simp [hu])
      have hm := ih s rest h'
      refine ⟨fun hs => ?_, fun hs => ?_, fun h1 h2 => ?_, fun hstop => ?_⟩
      · rw [List.cons_append, runMonitor_cons_skip t _ ht]
        exact hm.1 hs
      · rw [List.cons_append, runMonitor_cons_skip t _ ht]
        exact hm.2.1 hs
      · rw [List.cons_append, runMonitor_cons_skip t _ ht]
        exact hm.2.2.1 h1 h2
      · rw [List.cons_append, consumedSamples_cons_skip t _ ht, hm.2.2.2 hstop]
        simp [List.length_cons]
        omega

/-- Witness for C5: a running sample, then a completed one, then an unread
tail; the monitor reports success and consumes exactly two samples. -/
theorem monitor_stops_witness :
    runMonitor ([⟨.running, 10, 0⟩] ++ ⟨.completed, 20, 5⟩ :: [⟨.running, 30, 9⟩])
        = .completedOk
    ∧ consumedSamples
        ([⟨.running, 10, 0⟩] ++ ⟨.completed, 20, 5⟩ :: [⟨.running, 30, 9⟩]) = 2
    ∧ runMonitor ([⟨.queued, 1, 0⟩] ++ ⟨.running, 301, 0⟩ :: [⟨.running, 400, 0⟩])
        = .softTimeout := by
  refine ⟨?_, ?_, ?_⟩
  · exact (monitor_stops_on_terminal_or_timeout [⟨.running, 10, 0⟩]
      ⟨.completed, 20, 5⟩ [⟨.running, 30, 9⟩] (by decide)).1 rfl
  · have := (monitor_stops_on_terminal_or_timeout [⟨.running, 10, 0⟩]
      ⟨.completed, 20, 5⟩ [⟨.running, 30, 9⟩] (by decide)).2.2.2 (by decide)
    simpa using this
  · exact (monitor_stops_on_terminal_or_timeout [⟨.queued, 1, 0⟩]
      ⟨.running, 301, 0⟩ [⟨.running, 400, 0⟩] (by decide)).2.2.1 (by decide) (by decide)

/-- Claim C10: within one sample, the terminal-state check precedes the
watchdog check: a `Completed` or `Failed` sample whose elapsed time already
exceeds 300 seconds still yields the terminal outcome, never a soft timeout. -/
theorem terminal_checked_before_watchdog :
    ∀ (s : Sample) (rest : List Sample),
      timeout_seconds < s.elapsed →
      ((s.status = .completed → runMonitor (s :: rest) = .completedOk)
        ∧ (s.status = .failed → runMonitor (s :: rest) = .failedErr)) := by
  intro s rest _
  constructor
  · intro hs; simp [runMonitor, hs, isTerminal]
  · intro hs; simp [runMonitor, hs, isTerminal]

/-- Witness for C10: a completed sample at 301 seconds elapsed. -/
theorem terminal_checked_before_watchdog_witness :
    runMonitor [⟨.completed, 301, 0⟩] = .completedOk :=
  (terminal_checked_before_watchdog ⟨.completed, 301, 0⟩ [] (by decide)).1 rfl

/-- Counterexample for C3: with one discovered file that fails every
per-file check, `upload_videos` just returns (`.noValid`) and the process
exit code is 0, not non-zero as the claim states. -/
theorem all_rejected_exit_zero_cex :
    upload_videos ⟨"k".toList, "b".toList, "i".toList, "e".toList,
        "h".toList, "/d".toList, true⟩
      [⟨"/x.mp4".toList, false, false, false⟩] false true true [] = .noValid
    ∧ exitCode
        (upload_videos ⟨"k".toList, "b".toList, "i".toList, "e".toList,
            "h".toList, "/d".toList, true⟩
          [⟨"/x.mp4".toList, false, false, false⟩] false true true []) = 0 := by
  constructor <;> rfl

/-- Claim C3 (amended): if the per-file validation pass rejects every entry
of a non-empty file list, `upload_videos` reports the condition and returns
without submitting; the process then finishes normally with exit code 0 — the
empty batch is not escalated to a non-zero exit. -/
theorem all_rejected_returns_noValid :
    ∀ (c : Config) (files : List SrcFile) (dry_run connectOk submitOk : Bool)
      (stream : List Sample),
      files ≠ [] → validateFiles files = [] →
      upload_videos c files dry_run connectOk submitOk stream = .noValid
      ∧ exitCode (upload_videos c files dry_run connectOk submitOk stream) = 0 := by
  intro c files dr co so st h1 h2
  have hne : files.isEmpty = false := by
    cases files with
    | nil => exact absurd rfl h1
    | cons f fs => rfl
  have hres : upload_videos c files dr co so st = .noValid := by
    simp [upload_videos, hne, h2]
  exact ⟨hres, by rw [hres]; rfl⟩

/-- Witness for C3 (amended): a single unreadable non-regular entry. -/
theorem all_rejected_returns_noValid_witness :
    upload_videos ⟨[], [], [], [], [], [], true⟩
        [⟨"/y.mov".toList, true, false, true⟩] false true true [] = .noValid
    ∧ exitCode
        (upload_videos ⟨[], [], [], [], [], [], true⟩
          [⟨"/y.mov".toList, true, false, true⟩] false true true []) = 0 :=
  all_rejected_returns_noValid ⟨[], [], [], [], [], [], true⟩
    [⟨"/y.mov".toList, true, false, true⟩] false true true [] (by decide) (by decide)

/-- Claim C6: a dry run returns the printable spec built from the validated
files for every configuration — including one with any or all credential
fields empty — and never reaches the submission-time environment check. -/
theorem dry_run_skips_env_validation :
    ∀ (c : Config) (files : List SrcFile) (connectOk submitOk : Bool)
      (stream : List Sample),
      validateFiles files ≠ [] →
      upload_videos c files true connectOk submitOk stream
          = .dryRunSpec (create_transfer_spec c (validateFiles files))
      ∧ (∀ m, upload_videos c files true connectOk submitOk stream ≠ .envExit m) := by
  intro c files co so st h
  have hfe : files.isEmpty = false := by
    cases files with
    | nil => exact absurd rfl h
    | cons f fs => rfl
  have hv : (validateFiles files).isEmpty = false := by
    cases hvf : validateFiles files with
    | nil => exact absurd hvf h
    | cons a l => rfl
  have h1 : upload_videos c files true co so st
      = .dryRunSpec (create_transfer_spec c (validateFiles files)) := by
    simp [upload_videos, hfe, hv]
  exact ⟨h1, fun m hm => by rw [h1] at hm; exact UploadResult.noConfusion hm⟩

/-- Witness for C6: fully empty configuration, one valid file. -/
theorem dry_run_skips_env_validation_witness :
    upload_videos ⟨[], [], [], [], [], [], true⟩
        [⟨"/v.mp4".toList, true, true, true⟩] true true true []
      = .dryRunSpec
          (create_transfer_spec ⟨[], [], [], [], [], [], true⟩
            (validateFiles [⟨"/v.mp4".toList, true, true, true⟩])) :=
  (dry_run_skips_env_validation ⟨[], [], [], [], [], [], true⟩
    [⟨"/v.mp4".toList, true, true, true⟩] true true [] (by decide)).1

/-- Counterexample for C4: the extension ".Mp4" matches ".mp4" up to case,
yet both the single-file path and the directory path of `find_video_files`
reject it — matching is not case-insensitive over arbitrary letter-case
combinations. -/
theorem mixed_case_extension_cex :
    (pySuffix "video.Mp4".toList).map lowerChar = ".mp4".toList
    ∧ find_video_files (.file "video.Mp4".toList "/abs/video.Mp4".toList) = []
    ∧ find_video_files
        (.dir [⟨"video.Mp4".toList, "/abs/video.Mp4".toList, true⟩]) = [] := by
  refine ⟨by decide, by decide, by decide⟩

/-- Claim C4 (amended): discovery filters by literal membership in the
four-element list [.mp4, .mov, .MP4, .MOV]: a directory yields exactly the
resolved paths of its regular-file entries whose suffix is in that list (their
count equals the number of such entries), and a single file yields a
one-element result iff its suffix is in that list. -/
theorem find_video_files_exact_set :
    (∀ (name resolved : List Char),
        (pySuffix name ∈ video_types →
            find_video_files (.file name resolved) = [resolved])
        ∧ (pySuffix name ∉ video_types →
            find_video_files (.file name resolved) = []))
    ∧ (∀ (entries : List DirEntry) (r : List Char),
        r ∈ find_video_files (.dir entries) ↔
          ∃ e ∈ entries,
            pySuffix e.name ∈ video_types ∧ e.isFile = true ∧ e.resolved = r)
    ∧ (∀ entries : List DirEntry,
        (find_video_files (.dir entries)).length
          = entries.countP
              (fun e => decide (pySuffix e.name ∈ video_types) && e.isFile)) := by
  refine ⟨fun name resolved => ⟨fun h => ?_, fun h => ?_⟩, fun entries r => ?_,
    fun entries => ?_⟩
  · simp [find_video_files, h]
  · simp [find_video_files, h]
  · simp only [find_video_files, List.mem_map, List.mem_filter,
      Bool.and_eq_true, decide_eq_true_eq]
    constructor
    · rintro ⟨e, ⟨he, hm, hf⟩, hr⟩
      exact ⟨e, he, hm, hf, hr⟩
    · rintro ⟨e, he, hm, hf, hr⟩
      exact ⟨e, ⟨he, hm, hf⟩, hr⟩
  · simp [find_video_files, List.countP_eq_length_filter]

/-- Witness for C4 (amended): ".mp4" is accepted, ".txt" is rejected. -/
theorem find_video_files_exact_set_witness :
    find_video_files (.file "a.mp4".toList "/abs/a.mp4".toList)
        = ["/abs/a.mp4".toList]
    ∧ find_video_files (.file "a.txt".toList "/abs/a.txt".toList) = [] :=
  ⟨(find_video_files_exact_set.1 "a.mp4".toList "/abs/a.mp4".toList).1 (by decide),
   (find_video_files_exact_set.1 "a.txt".toList "/abs/a.txt".toList).2 (by decide)⟩

/-- Claim C9: each asset contributes exactly one `source` entry to the built
paths (same length, pointwise image under `assetEntry`), the `destination`
field is present iff the asset has an override, and the builder in src,
which never attaches overrides, emits one destination-free entry per file. -/
theorem asset_entries_one_per_asset :
    (∀ assets : List SourceAsset,
        (assetPathEntries assets).length = assets.length
        ∧ (∀ i : Nat,
            (assetPathEntries assets)[i]? = assets[i]?.map assetEntry))
    ∧ (∀ a : SourceAsset,
        ((assetEntry a).destination = none ↔ a.destinationOverride = none)
        ∧ (assetEntry a).source = a.absolutePath)
    ∧ (∀ (c : Config) (files : List (List Char)),
        (create_transfer_spec c files).paths
          = files.map (fun f => { source := f, destination := none })) := by
  refine ⟨fun assets => ⟨by simp [assetPathEntries],
    fun i => by simp [assetPathEntries, List.getElem?_map]⟩,
    fun a => ⟨Iff.rfl, rfl⟩, fun c files => rfl⟩

end VideoUploader
